import Mathlib

/-!
Shallow embedding of the SSH dissector in src/src/ssh.c (the joy ssh feature
module) and proofs about it.

Bytes are modelled as `Nat` values in `0..255`; byte buffers as `List Nat`.
C unsigned-int arithmetic is modelled with explicit `% 4294967296` where the
source can wrap.  The `struct ssh` record fields `protocol` and
`host_key_algos` are fixed-capacity C character buffers declared in `ssh.h`,
which is not part of the sources; following the spec ("capacity is a
compile-time/config constant") the capacities are threaded through as
explicit `Nat` parameters, and the buffers themselves are modelled by their
string content (the bytes before the terminator).
-/

/-- Role enumeration of `struct ssh` (`role_unknown`, `role_client`,
`role_server` from `ssh.h`, referenced by `ssh_init` / `ssh_update`). -/
inductive Role where
  | unknown
  | client
  | server
deriving DecidableEq, Repr

/-- The observable state of `struct ssh`: `role`, the `protocol` banner
buffer content, the 16-byte `cookie`, and the `host_key_algos` buffer
content. -/
structure Ssh where
  role : Role
  protocol : List Nat
  cookie : List Nat
  host_key_algos : List Nat
deriving DecidableEq, Repr

/-- Model of `isprint` from ctype.h in the default C locale: the printable ASCII
range 0x20..0x7E; all other byte values (including ≥ 0x80) are
non-printable. -/
def isprintB (b : Nat) : Bool := 32 ≤ b && b ≤ 126

/-- Embedding of `copy_printable_string(buf, buflen, data, datalen)` (ssh.c lines 52-66):
the loop `while (buflen-- && datalen--)` copies at most `min buflen datalen`
bytes, stopping at the first non-printable byte; the returned list is the
copied content.  The source then writes the terminator at index
`(result).length`, which equals `buflen` itself (one past the buffer) when
`min buflen datalen` printable bytes were copied and `datalen ≥ buflen`. -/
def copy_printable_string (buflen : Nat) (data : List Nat) (datalen : Nat) : List Nat :=
  ((data.take datalen).take buflen).takeWhile isprintB

/-- Index at which `copy_printable_string` writes its `*buf = 0` terminator:
immediately after the last copied byte. -/
def copy_terminator_index (buflen : Nat) (data : List Nat) (datalen : Nat) : Nat :=
  (copy_printable_string buflen data datalen).length

/-- Embedding of `decode_uint32` (ssh.c lines 137-141): `ntohl` of four bytes, i.e. the
big-endian 32-bit value of the first four bytes. -/
def decode_uint32 (data : List Nat) : Nat :=
  data.getD 0 0 * 16777216 + data.getD 1 0 * 65536 + data.getD 2 0 * 256 + data.getD 3 0

/-- Embedding of `ssh_packet_parse(pkt, datalen, msg_code)` (ssh.c lines 120-135).
Returns the computed payload length together with the value stored through
`msg_code` (`none` when the source leaves it unwritten).  The size guard in
the source is `datalen < sizeof(ssh_packet)` where `ssh_packet` is the local
*pointer* variable, so it compares against 8 (pointer size on the LP64
target), not the 6-byte packed `struct ssh_packet`.  The final
`return length - ssh_packet->padding_length - 5` is C unsigned-int
arithmetic and may wrap, hence the explicit `% 4294967296`. -/
def ssh_packet_parse (data : List Nat) (datalen : Nat) : Nat × Option Nat :=
  if datalen < 8 then (0, none)
  else
    let length := decode_uint32 data
    if length > 32768 then (0, none)
    else ((length + 4294967296 - data.getD 4 0 - 5) % 4294967296, some (data.getD 5 0))

/-- Embedding of `ssh_parse_kexinit(ssh, data, datalen)` (ssh.c lines 164-186), with the
capacity of `ssh->host_key_algos` (from the missing `ssh.h`) passed as
`algosCap`.  The cookie is `memcpy`ed as soon as `datalen ≥ 16`; the
name-list is copied only if four more bytes are declared available and the
decoded length is non-zero. -/
def ssh_parse_kexinit (algosCap : Nat) (ssh : Ssh) (data : List Nat) (datalen : Nat) : Ssh :=
  if datalen < 16 then ssh
  else
    let ssh1 : Ssh := { ssh with cookie := data.take 16 }
    if datalen - 16 < 4 then ssh1
    else if decode_uint32 (data.drop 16) = 0 then ssh1
    else { ssh1 with host_key_algos := copy_printable_string algosCap (data.drop 20) (datalen - 20) }

/-- Embedding of `ssh_init` (ssh.c lines 193-198): role unknown, empty strings, all-zero
cookie. -/
def ssh_init : Ssh :=
  { role := Role.unknown, protocol := [], cookie := List.replicate 16 0, host_key_algos := [] }

/-- Embedding of `ssh_update(ssh, data, len, report_ssh)` (ssh.c lines 200-233), with the
capacities of `ssh->protocol` and `ssh->host_key_algos` passed as `protoCap`
and `algosCap`.  The banner branch fires only when `role == role_unknown`
and `protocol[0] == 0` (empty content); every non-empty enabled chunk is
then framed, and message code 20 (`SSH_MSG_KEXINIT`) dispatches to
`ssh_parse_kexinit` on the bytes after the 6-byte packed header. -/
def ssh_update (protoCap algosCap : Nat) (ssh : Ssh) (data : List Nat) (len : Nat)
    (report_ssh : Bool) : Ssh :=
  if len = 0 then ssh
  else if report_ssh then
    let ssh1 :=
      if ssh.role = Role.unknown ∧ ssh.protocol = [] then
        { ssh with protocol := copy_printable_string protoCap data len, role := Role.client }
      else ssh
    let p := ssh_packet_parse data len
    if p.1 = 0 then ssh1
    else if p.2 = some 20 then ssh_parse_kexinit algosCap ssh1 (data.drop 6) p.1
    else ssh1
  else ssh

/-- A sequence of `ssh_update` calls on one record; each call passes the
chunk with its own length, together with its `report_ssh` flag. -/
def ssh_run (protoCap algosCap : Nat) (s : Ssh) (calls : List (List Nat × Bool)) : Ssh :=
  calls.foldl (fun st c => ssh_update protoCap algosCap st c.1 c.1.length c.2) s

/-- The ASCII bytes of the banner chunk "SSH-2.0-demo". -/
def bannerChunk : List Nat := [83, 83, 72, 45, 50, 46, 48, 45, 100, 101, 109, 111]

/-- A concrete 16-byte KEXINIT cookie. -/
def kexCookie : List Nat := [1, 2, 3, 4, 5, 6, 7, 8, 9, 10, 11, 12, 13, 14, 15, 16]

/-- The ASCII bytes of "diffie-hellman-group14-sha1" (27 bytes). -/
def kexAlgoName : List Nat :=
  [100, 105, 102, 102, 105, 101, 45, 104, 101, 108, 108, 109, 97, 110, 45, 103, 114, 111, 117,
   112, 49, 52, 45, 115, 104, 97, 49]

/-- A well-formed KEXINIT packet: packet_length 52 (big-endian), padding 0,
message type 20, 16-byte cookie, name-list length 27, then the 27 name
bytes; 53 bytes in total, so the payload length reported by the framer is
52 − 0 − 5 = 47 = 16 + 4 + 27. -/
def kexinitChunk : List Nat := [0, 0, 0, 52, 0, 20] ++ kexCookie ++ [0, 0, 0, 27] ++ kexAlgoName

/-- Nine chunks of lengths 1..9, each all-zero, all with analysis enabled. -/
def zeroChunks : List (List Nat × Bool) :=
  [([0], true),
   ([0, 0], true),
   ([0, 0, 0], true),
   ([0, 0, 0, 0], true),
   ([0, 0, 0, 0, 0], true),
   ([0, 0, 0, 0, 0, 0], true),
   ([0, 0, 0, 0, 0, 0, 0], true),
   ([0, 0, 0, 0, 0, 0, 0, 0], true),
   ([0, 0, 0, 0, 0, 0, 0, 0, 0], true)]

/-! helper lemmas -/

theorem takeWhile_take_comm (p : Nat → Bool) :
    ∀ (l : List Nat) (n : Nat), (l.take n).takeWhile p = (l.takeWhile p).take n
  | [], n => by simp
  | a :: l, 0 => by simp
  | a :: l, n + 1 => by
    by_cases h : p a
    · simp [List.takeWhile_cons, h, takeWhile_take_comm p l n]
    · simp [List.takeWhile_cons, h]

theorem copy_printable_string_eq (cap : Nat) (l : List Nat) (dl : Nat) :
    copy_printable_string cap l dl = ((l.take dl).takeWhile isprintB).take cap := by
  unfold copy_printable_string
  rw [takeWhile_take_comm]

theorem copy_printable_string_full (cap : Nat) (l : List Nat)
    (hlen : l.length ≤ cap) (hp : l.takeWhile isprintB = l) :
    copy_printable_string cap l l.length = l := by
  rw [copy_printable_string_eq, List.take_length, hp, List.take_of_length_le hlen]

theorem kexinit_preserve (cap : Nat) (s : Ssh) (data : List Nat) (dl : Nat) :
    (ssh_parse_kexinit cap s data dl).role = s.role ∧
      (ssh_parse_kexinit cap s data dl).protocol = s.protocol := by
  unfold ssh_parse_kexinit
  split_ifs <;> simp

theorem ssh_update_noop (pc ac : Nat) (s : Ssh) (data : List Nat) (len : Nat) (rep : Bool)
    (h : len = 0 ∨ rep = false) :
    ssh_update pc ac s data len rep = s := by
  rcases h with h | h
  · unfold ssh_update
    rw [if_pos h]
  · subst h
    unfold ssh_update
    split_ifs <;> first | rfl | simp_all

theorem ssh_update_client_eq (pc ac : Nat) (s : Ssh) (data : List Nat) (len : Nat)
    (hl : len ≠ 0) (hban : ¬(s.role = Role.unknown ∧ s.protocol = [])) :
    ssh_update pc ac s data len true =
      (if (ssh_packet_parse data len).1 = 0 then s
       else if (ssh_packet_parse data len).2 = some 20 then
         ssh_parse_kexinit ac s (data.drop 6) (ssh_packet_parse data len).1
       else s) := by
  unfold ssh_update
  rw [if_neg hl, if_neg hban]
  rfl

theorem ssh_update_ignored (pc ac : Nat) (s : Ssh) (data : List Nat) (len : Nat)
    (hrole : s.role ≠ Role.unknown)
    (hp : (ssh_packet_parse data len).1 = 0 ∨ (ssh_packet_parse data len).2 ≠ some 20) :
    ssh_update pc ac s data len true = s := by
  by_cases hl : len = 0
  · exact ssh_update_noop pc ac s data len true (Or.inl hl)
  rw [ssh_update_client_eq pc ac s data len hl (fun hc => hrole hc.1)]
  rcases hp with hp | hp
  · rw [if_pos hp]
  · by_cases h1 : (ssh_packet_parse data len).1 = 0
    · rw [if_pos h1]
    · rw [if_neg h1, if_neg hp]

theorem ssh_update_preserve (pc ac : Nat) (s : Ssh) (data : List Nat) (len : Nat) (rep : Bool)
    (h : s.role ≠ Role.unknown) :
    (ssh_update pc ac s data len rep).role = s.role ∧
      (ssh_update pc ac s data len rep).protocol = s.protocol := by
  cases rep with
  | false =>
    rw [ssh_update_noop pc ac s data len false (Or.inr rfl)]
    exact ⟨rfl, rfl⟩
  | true =>
    by_cases hl : len = 0
    · rw [ssh_update_noop pc ac s data len true (Or.inl hl)]
      exact ⟨rfl, rfl⟩
    rw [ssh_update_client_eq pc ac s data len hl (fun hc => h hc.1)]
    split_ifs
    · exact ⟨rfl, rfl⟩
    · exact ⟨(kexinit_preserve _ _ _ _).1, (kexinit_preserve _ _ _ _).2⟩
    · exact ⟨rfl, rfl⟩

theorem ssh_update_first (pc ac : Nat) (s : Ssh) (data : List Nat) (len : Nat)
    (hr : s.role = Role.unknown) (hp : s.protocol = []) (hl : len ≠ 0) :
    (ssh_update pc ac s data len true).role = Role.client ∧
      (ssh_update pc ac s data len true).protocol = copy_printable_string pc data len := by
  have hstep : ssh_update pc ac s data len true =
      (if (ssh_packet_parse data len).1 = 0 then
        { s with protocol := copy_printable_string pc data len, role := Role.client }
       else if (ssh_packet_parse data len).2 = some 20 then
         ssh_parse_kexinit ac
           { s with protocol := copy_printable_string pc data len, role := Role.client }
           (data.drop 6) (ssh_packet_parse data len).1
       else { s with protocol := copy_printable_string pc data len, role := Role.client }) := by
    unfold ssh_update
    rw [if_neg hl, if_pos (show s.role = Role.unknown ∧ s.protocol = [] from ⟨hr, hp⟩)]
    rfl
  rw [hstep]
  split_ifs
  · exact ⟨rfl, rfl⟩
  · exact ⟨(kexinit_preserve _ _ _ _).1, (kexinit_preserve _ _ _ _).2⟩
  · exact ⟨rfl, rfl⟩

theorem ssh_run_skip (pc ac : Nat) :
    ∀ (calls : List (List Nat × Bool)) (s : Ssh),
      (∀ x ∈ calls, x.1 = [] ∨ x.2 = false) → ssh_run pc ac s calls = s
  | [], s, _ => rfl
  | c :: rest, s, h => by
    have hc := h c (List.mem_cons_self c rest)
    have hstep : ssh_update pc ac s c.1 c.1.length c.2 = s := by
      apply ssh_update_noop
      rcases hc with hc | hc
      · exact Or.inl (by simp [hc])
      · exact Or.inr hc
    show ssh_run pc ac (ssh_update pc ac s c.1 c.1.length c.2) rest = s
    rw [hstep]
    exact ssh_run_skip pc ac rest s (fun x hx => h x (List.mem_cons_of_mem c hx))

theorem ssh_run_preserve (pc ac : Nat) :
    ∀ (calls : List (List Nat × Bool)) (s : Ssh), s.role ≠ Role.unknown →
      (ssh_run pc ac s calls).role = s.role ∧ (ssh_run pc ac s calls).protocol = s.protocol
  | [], s, _ => ⟨rfl, rfl⟩
  | c :: rest, s, h => by
    have hu := ssh_update_preserve pc ac s c.1 c.1.length c.2 h
    have hrole : (ssh_update pc ac s c.1 c.1.length c.2).role ≠ Role.unknown := by
      rw [hu.1]; exact h
    have ih := ssh_run_preserve pc ac rest _ hrole
    exact ⟨ih.1.trans hu.1, ih.2.trans hu.2⟩

theorem ssh_run_cons (pc ac : Nat) (s : Ssh) (c : List Nat × Bool)
    (rest : List (List Nat × Bool)) :
    ssh_run pc ac s (c :: rest) = ssh_run pc ac (ssh_update pc ac s c.1 c.1.length c.2) rest :=
  rfl

theorem ssh_run_append (pc ac : Nat) (s : Ssh) (l1 l2 : List (List Nat × Bool)) :
    ssh_run pc ac s (l1 ++ l2) = ssh_run pc ac (ssh_run pc ac s l1) l2 := by
  unfold ssh_run
  rw [List.foldl_append]

theorem ssh_run_ignored (pc ac : Nat) (s : Ssh) (hrole : s.role ≠ Role.unknown) :
    ∀ (calls : List (List Nat × Bool)),
      (∀ x ∈ calls,
        (ssh_packet_parse x.1 x.1.length).1 = 0 ∨
          (ssh_packet_parse x.1 x.1.length).2 ≠ some 20) →
      ssh_run pc ac s calls = s
  | [], _ => rfl
  | c :: rest, h => by
    have hc := h c (List.mem_cons_self c rest)
    have hstep : ssh_update pc ac s c.1 c.1.length c.2 = s := by
      cases hcb : c.2 with
      | false => exact ssh_update_noop _ _ _ _ _ _ (Or.inr rfl)
      | true => exact ssh_update_ignored pc ac s c.1 c.1.length hrole hc
    show ssh_run pc ac (ssh_update pc ac s c.1 c.1.length c.2) rest = s
    rw [hstep]
    exact ssh_run_ignored pc ac s hrole rest (fun x hx => h x (List.mem_cons_of_mem c hx))

/-! Claim theorems -/

/-- C6: for every input buffer of length n < 6, ssh_packet_parse returns the
zero failure sentinel with msg_code left unwritten; the result is the same
for every buffer content (the function is constant in `data` here), so no
byte of data[0..n) — let alone beyond it — is read. -/
theorem c6_short_buffer_fails (data : List Nat) (n : Nat) (h : n < 6) :
    ssh_packet_parse data n = (0, none) := by
  unfold ssh_packet_parse
  rw [if_pos (by omega)]

theorem c6_short_buffer_fails_witness :
    ssh_packet_parse [0, 0, 0, 1, 0] 5 = (0, none) :=
  c6_short_buffer_fails [0, 0, 0, 1, 0] 5 (by omega)

/-- C7: for every input buffer passing the header-size check (datalen ≥ 8),
a decoded big-endian packet_length exceeding 32768 makes ssh_packet_parse
return the zero failure sentinel. -/
theorem c7_oversized_length_fails (data : List Nat) (n : Nat) (h8 : 8 ≤ n)
    (hlen : 32768 < decode_uint32 data) :
    ssh_packet_parse data n = (0, none) := by
  unfold ssh_packet_parse
  rw [if_neg (by omega)]
  simp only []
  rw [if_pos hlen]

theorem c7_oversized_length_fails_witness :
    ssh_packet_parse [255, 0, 0, 0, 0, 0, 0, 0] 8 = (0, none) :=
  c7_oversized_length_fails [255, 0, 0, 0, 0, 0, 0, 0] 8 (by omega) (by decide)

/-- C10: for every buffer of length 6 or 7 — enough for the whole 6-byte
packed header — ssh_packet_parse still returns the zero failure sentinel,
because the source compares datalen against sizeof of the *pointer*
variable `ssh_packet` (8 bytes on the LP64 target) instead of the 6-byte
`struct ssh_packet`. -/
theorem c10_pointer_sizeof_check (data : List Nat)
    (h : data.length = 6 ∨ data.length = 7) :
    ssh_packet_parse data data.length = (0, none) := by
  unfold ssh_packet_parse
  rw [if_pos (by rcases h with h | h <;> omega)]

theorem c10_pointer_sizeof_check_witness :
    ssh_packet_parse [0, 0, 0, 1, 0, 20] 6 = (0, none) :=
  c10_pointer_sizeof_check [0, 0, 0, 1, 0, 20] (Or.inl rfl)

/-- C3 (code bug, evaluation at the failing input): an 8-byte buffer
declaring packet_length = 0 and padding_length = 10 has
padding_length + 5 > packet_length, yet ssh_packet_parse does not fail: the
unsigned subtraction wraps around and it returns the huge payload length
(0 − 10 − 5) mod 2^32 = 4294967281 together with message code 20. -/
theorem c3_underflow_wraps :
    ssh_packet_parse [0, 0, 0, 0, 10, 20, 0, 0] 8 = (4294967281, some 20) := by
  decide

/-- C2 (code bug, evaluation at the failing input): with capacity C = 1 and
a single printable source byte (L = 1), the copier copies min(L, C) = 1
byte — not min(L, C−1) = 0 — and writes its terminator at index 1, i.e. at
buf[C], one past the destination buffer. -/
theorem c2_off_by_one :
    copy_printable_string 1 [65] 1 = [65] ∧ copy_terminator_index 1 [65] 1 = 1 := by
  decide

/-- C9: ssh_update is a byte-for-byte no-op on the record whenever the
chunk length is zero or the analysis flag is off. -/
theorem c9_empty_or_disabled_noop (pc ac : Nat) (s : Ssh) (data : List Nat) (len : Nat)
    (rep : Bool) (h : len = 0 ∨ rep = false) :
    ssh_update pc ac s data len rep = s :=
  ssh_update_noop pc ac s data len rep h

theorem c9_empty_or_disabled_noop_witness :
    ssh_update 4 4 ssh_init [7] 0 true = ssh_init ∧
      ssh_update 4 4 ssh_init [7] 1 false = ssh_init :=
  ⟨c9_empty_or_disabled_noop 4 4 ssh_init [7] 0 true (Or.inl rfl),
   c9_empty_or_disabled_noop 4 4 ssh_init [7] 1 false (Or.inr rfl)⟩

/-- C1 counterexample: a KEXINIT payload of exactly 16 bytes passes the
cookie check but aborts at the name-list length check, leaving the cookie
overwritten while first_algorithm_list keeps its prior value — the two
fields are not written atomically. -/
theorem c1_cookie_only_counterexample :
    (ssh_parse_kexinit 32 ssh_init (List.replicate 16 1) 16).cookie ≠ ssh_init.cookie ∧
      (ssh_parse_kexinit 32 ssh_init (List.replicate 16 1) 16).host_key_algos =
        ssh_init.host_key_algos := by
  decide

/-- C1 amended: a decode that aborts at the cookie check (datalen < 16)
leaves the whole record unchanged, and first_algorithm_list is never
overwritten without the cookie having been overwritten by the same call
(with the first 16 payload bytes); but a decode that aborts after the
cookie copy (missing or zero name-list length) leaves the cookie
overwritten with first_algorithm_list unchanged. -/
theorem c1_amended_one_way_atomicity (cap : Nat) (s : Ssh) (data : List Nat) (datalen : Nat) :
    (datalen < 16 → ssh_parse_kexinit cap s data datalen = s) ∧
      ((ssh_parse_kexinit cap s data datalen).host_key_algos ≠ s.host_key_algos →
        16 ≤ datalen ∧ (ssh_parse_kexinit cap s data datalen).cookie = data.take 16) := by
  unfold ssh_parse_kexinit
  split_ifs with h1 h2 h3
  · exact ⟨fun _ => rfl, fun hc => absurd rfl hc⟩
  · exact ⟨fun hlt => absurd hlt h1, fun hc => absurd rfl hc⟩
  · exact ⟨fun hlt => absurd hlt h1, fun hc => absurd rfl hc⟩
  · exact ⟨fun hlt => absurd hlt h1, fun _ => ⟨by omega, rfl⟩⟩

theorem c1_amended_one_way_atomicity_witness :
    ssh_parse_kexinit 8 ssh_init [9, 9] 2 = ssh_init ∧
      (16 ≤ 23 ∧
        (ssh_parse_kexinit 8 ssh_init
            (List.replicate 16 7 ++ [0, 0, 0, 3, 65, 66, 67]) 23).cookie =
          (List.replicate 16 7 ++ [0, 0, 0, 3, 65, 66, 67]).take 16) :=
  ⟨(c1_amended_one_way_atomicity 8 ssh_init [9, 9] 2).1 (by omega),
   (c1_amended_one_way_atomicity 8 ssh_init
      (List.replicate 16 7 ++ [0, 0, 0, 3, 65, 66, 67]) 23).2 (by decide)⟩

/-- C5: starting from the zero-initialized record, after any run of skipped
calls (empty chunk or analysis disabled) the record is still the initial
one; the first non-empty chunk processed with analysis enabled sets role to
client and protocol to the printable prefix of that chunk as produced by the
bounded copier (truncated to the protocol-buffer capacity), and no
continuation of the run ever changes role or protocol again — so role
transitions unknown → client exactly once, takes no other value, and the
banner is written exactly once. -/
theorem c5_banner_set_once (pc ac : Nat) (pre post : List (List Nat × Bool))
    (c : List Nat × Bool) (hpre : ∀ x ∈ pre, x.1 = [] ∨ x.2 = false)
    (hc : c.1 ≠ []) (hen : c.2 = true) :
    ssh_run pc ac ssh_init pre = ssh_init ∧
      (ssh_run pc ac ssh_init (pre ++ c :: post)).role = Role.client ∧
      (ssh_run pc ac ssh_init (pre ++ c :: post)).protocol =
        (c.1.takeWhile isprintB).take pc := by
  have hskip : ssh_run pc ac ssh_init pre = ssh_init := ssh_run_skip pc ac pre ssh_init hpre
  refine ⟨hskip, ?_⟩
  rw [ssh_run_append, hskip, ssh_run_cons, hen]
  have hlen : c.1.length ≠ 0 := fun h0 => hc (List.length_eq_zero.mp h0)
  have hfirst := ssh_update_first pc ac ssh_init c.1 c.1.length rfl rfl hlen
  have hrole : (ssh_update pc ac ssh_init c.1 c.1.length true).role ≠ Role.unknown := by
    rw [hfirst.1]
    decide
  have hpres := ssh_run_preserve pc ac post _ hrole
  refine ⟨?_, ?_⟩
  · rw [hpres.1]
    exact hfirst.1
  · rw [hpres.2, hfirst.2, copy_printable_string_eq, List.take_length]

theorem c5_banner_set_once_witness :
    ssh_run 4 4 ssh_init [] = ssh_init ∧
      (ssh_run 4 4 ssh_init ([] ++ ([65], true) :: [])).role = Role.client ∧
      (ssh_run 4 4 ssh_init ([] ++ ([65], true) :: [])).protocol =
        (([65] : List Nat).takeWhile isprintB).take 4 :=
  c5_banner_set_once 4 4 [] [] ([65], true)
    (fun x hx => absurd hx (List.not_mem_nil x)) (by decide) rfl

/-- C8: nine all-zero chunks of lengths 1..9 with analysis enabled leave a
final record with role client (set by the first chunk), empty banner (the
zero byte is non-printable), all-zero cookie and empty algorithm list (no
chunk frames as a KEXINIT: lengths 1..7 fail the size check, and lengths 8
and 9 frame with message code 0, which is ignored). -/
theorem c8_zero_chunks (pc ac : Nat) :
    ssh_run pc ac ssh_init zeroChunks =
      { role := Role.client, protocol := [], cookie := List.replicate 16 0,
        host_key_algos := [] } := by
  have hcopy : copy_printable_string pc [0] ([0] : List Nat).length = [] := by
    rw [copy_printable_string_eq,
        show (([0] : List Nat).take ([0] : List Nat).length).takeWhile isprintB =
          ([] : List Nat) from by decide,
        List.take_nil]
  have h1 : ssh_update pc ac ssh_init [0] ([0] : List Nat).length true =
      { role := Role.client, protocol := [], cookie := List.replicate 16 0,
        host_key_algos := [] } := by
    unfold ssh_update
    rw [if_neg (show ¬(([0] : List Nat).length = 0) from by decide),
        if_pos (show ssh_init.role = Role.unknown ∧ ssh_init.protocol = [] from ⟨rfl, rfl⟩),
        hcopy]
    rfl
  unfold zeroChunks
  rw [ssh_run_cons]
  dsimp only
  rw [h1]
  exact ssh_run_ignored pc ac
    { role := Role.client, protocol := [], cookie := List.replicate 16 0,
      host_key_algos := [] } (by decide) _ (by decide)

/-- C4: the banner chunk "SSH-2.0-demo" followed by one well-formed KEXINIT
packet (header, type 20, 16-byte cookie, name-list of length 27 declaring
"diffie-hellman-group14-sha1") yields a record with that banner, that
cookie, and that algorithm list, for any buffer capacities that hold them
(protocol capacity ≥ 12, algorithm-list capacity ≥ 27). -/
theorem c4_end_to_end (pc ac : Nat) (hpc : 12 ≤ pc) (hac : 27 ≤ ac) :
    ssh_run pc ac ssh_init [(bannerChunk, true), (kexinitChunk, true)] =
      { role := Role.client, protocol := bannerChunk, cookie := kexCookie,
        host_key_algos := kexAlgoName } := by
  have hcopy1 : copy_printable_string pc bannerChunk bannerChunk.length = bannerChunk :=
    copy_printable_string_full pc bannerChunk (by exact hpc) (by decide)
  have h1 : ssh_update pc ac ssh_init bannerChunk bannerChunk.length true =
      { role := Role.client, protocol := bannerChunk, cookie := List.replicate 16 0,
        host_key_algos := [] } := by
    unfold ssh_update
    rw [if_neg (show ¬(bannerChunk.length = 0) from by decide),
        if_pos (show ssh_init.role = Role.unknown ∧ ssh_init.protocol = [] from ⟨rfl, rfl⟩),
        hcopy1]
    rfl
  have hcopy2 : copy_printable_string ac kexAlgoName kexAlgoName.length = kexAlgoName :=
    copy_printable_string_full ac kexAlgoName (by exact hac) (by decide)
  have hkex : ssh_parse_kexinit ac
      { role := Role.client, protocol := bannerChunk, cookie := List.replicate 16 0,
        host_key_algos := [] } (kexinitChunk.drop 6) 47 =
      { role := Role.client, protocol := bannerChunk, cookie := kexCookie,
        host_key_algos := kexAlgoName } := by
    unfold ssh_parse_kexinit
    split_ifs with ha hb hz
    · exact absurd ha (by decide)
    · exact absurd hb (by decide)
    · exact absurd hz (by decide)
    · show Ssh.mk Role.client bannerChunk ((kexinitChunk.drop 6).take 16)
          (copy_printable_string ac ((kexinitChunk.drop 6).drop 20) ((47 : Nat) - 20)) =
        Ssh.mk Role.client bannerChunk kexCookie kexAlgoName
      rw [show (kexinitChunk.drop 6).drop 20 = kexAlgoName from by decide,
          show ((47 : Nat) - 20) = kexAlgoName.length from by decide, hcopy2]
      rfl
  have h2 : ssh_update pc ac
      { role := Role.client, protocol := bannerChunk, cookie := List.replicate 16 0,
        host_key_algos := [] } kexinitChunk kexinitChunk.length true =
      { role := Role.client, protocol := bannerChunk, cookie := kexCookie,
        host_key_algos := kexAlgoName } := by
    rw [ssh_update_client_eq pc ac _ kexinitChunk kexinitChunk.length (by decide)
        (fun hcond => absurd hcond.1 (by decide))]
    rw [if_neg (show ¬(ssh_packet_parse kexinitChunk kexinitChunk.length).1 = 0 from by decide),
        if_pos (show (ssh_packet_parse kexinitChunk kexinitChunk.length).2 = some 20 from
          by decide)]
    rw [show (ssh_packet_parse kexinitChunk kexinitChunk.length).1 = 47 from by decide]
    exact hkex
  rw [ssh_run_cons]
  dsimp only
  rw [h1, ssh_run_cons]
  dsimp only
  rw [h2]
  rfl

theorem c4_end_to_end_witness :
    ssh_run 64 64 ssh_init [(bannerChunk, true), (kexinitChunk, true)] =
      { role := Role.client, protocol := bannerChunk, cookie := kexCookie,
        host_key_algos := kexAlgoName } :=
  c4_end_to_end 64 64 (by omega) (by omega)
